import Mathlib

/-!
Verification of the VibeYui message-engagement system against its
natural-language specification.

The development shallowly embeds the Python sources:
  * `src/heartbeat/monitor.py`  — the per-scope engagement state machine,
  * `src/memory/pool.py`        — the scoped persistent log,
  * `src/context/engine.py`     — the recent-window context store,
  * `src/agent/service.py`      — the bounded tool-calling agent loop,
  * `src/router/router.py` and `src/core/workflow.py` — admission and the
    workflow orchestrator.

Python strings are modelled as `List Char` (`Str`); Python floats as `Rat`
(all arithmetic relevant to the claims is exact on the small decimal
constants involved); Unix timestamps as `Int` (the source truncates with
`int(...)` before every comparison).  `str.lower()` and `str.isalnum()` are
modelled on the character ranges exercised by this code base (ASCII plus the
CJK block); the claims do not depend on exotic Unicode case mapping.
Side-effecting calls (`_persist`, LLM requests, MCP tool calls, workflow
hooks) are modelled as explicit data: a `persisted` flag, round-indexed
oracles, and an action trace.
-/

/-- Str models a Python `str` as its list of characters. -/
abbrev Str := List Char

/-- pstr converts a Lean string literal into the `Str` model. -/
def pstr (s : String) : Str := s.data

/-- pySpace models membership in the set of characters removed by Python's
`str.strip()` (Unicode whitespace). -/
def pySpace (c : Char) : Bool :=
  c.toNat = 32 || c.toNat = 9 || c.toNat = 10 || c.toNat = 13 || c.toNat = 11 || c.toNat = 12 ||
  c.toNat = 28 || c.toNat = 29 || c.toNat = 30 || c.toNat = 31 || c.toNat = 133 || c.toNat = 160 ||
  c.toNat = 5760 || (8192 ≤ c.toNat && c.toNat ≤ 8202) || c.toNat = 8232 || c.toNat = 8233 ||
  c.toNat = 8239 || c.toNat = 8287 || c.toNat = 12288

/-- pyStrip models Python's `str.strip()`: drop whitespace from both ends. -/
def pyStrip (l : Str) : Str :=
  ((l.dropWhile pySpace).reverse.dropWhile pySpace).reverse

/-- pyLowerChar models `str.lower()` character-wise (ASCII case mapping; the
non-ASCII characters this code base feeds through `lower()` are CJK and map
to themselves). -/
def pyLowerChar (c : Char) : Char :=
  if 'A' ≤ c ∧ c ≤ 'Z' then Char.ofNat (c.toNat + 32) else c

/-- pyLower applies `pyLowerChar` to every character. -/
def pyLower (l : Str) : Str := l.map pyLowerChar

/-- isWordChar recognises the character class of the token regex
`[a-z0-9_]` in `HeartbeatMonitor._collect_signals`. -/
def isWordChar (c : Char) : Bool :=
  ('a' ≤ c && c ≤ 'z') || ('0' ≤ c && c ≤ '9') || c = '_'

/-- isCJK recognises the regex class `[一-鿿]` from
`HeartbeatMonitor._collect_signals`. -/
def isCJK (c : Char) : Bool := 0x4e00 ≤ c.toNat && c.toNat ≤ 0x9fff

/-- tokenRunsAux accumulates the current maximal run of word characters
while scanning the text; runs are emitted when they end. -/
def tokenRunsAux : Str → List Char → List Str
  | [], acc => if acc = [] then [] else [acc.reverse]
  | c :: rest, acc =>
    if isWordChar c then tokenRunsAux rest (c :: acc)
    else if acc = [] then tokenRunsAux rest []
    else acc.reverse :: tokenRunsAux rest []

/-- tokenRuns lists the maximal runs of word characters in the text, in
order, modelling the findall over the word-character class before the
length constraint. -/
def tokenRuns (l : Str) : List Str := tokenRunsAux l []

/-- wordSignalTokens models the word-token half of `_collect_signals`:
lowercase the text and keep the maximal `[a-z0-9_]` runs of length ≥ 2.
The Python `set` is modelled as a list; the claims only use membership
and emptiness, which are duplicate-insensitive. -/
def wordSignalTokens (text : Str) : List Str :=
  (tokenRuns (pyLower text)).filter (fun t => 2 ≤ t.length)

/-- cjkList models the CJK half of `_collect_signals` before set
formation: every character of the lowered text in the CJK block. -/
def cjkList (text : Str) : Str := (pyLower text).filter isCJK

/-- cjkSet models the Python `set` of CJK characters (deduplicated). -/
def cjkSet (text : Str) : Str := (cjkList text).dedup

/-- anyShared tests whether the two token lists intersect, modelling
`msg_words & focus_words` being non-empty. -/
def anyShared (xs ys : List Str) : Bool :=
  xs.any (fun x => decide (x ∈ ys))

/-- sharedCJKCount models `len(msg_chars & focus_chars)`: the number of
distinct CJK characters common to both texts. -/
def sharedCJKCount (m f : Str) : Nat :=
  ((cjkSet m).filter (fun c => decide (c ∈ cjkSet f))).length

/-- isRelated models `HeartbeatMonitor._is_related(message)` with the
monitor's `_focus_text` passed explicitly as `focus`. -/
def isRelated (focus msg : Str) : Bool :=
  if focus = [] then true
  else if !(wordSignalTokens msg).isEmpty && !(wordSignalTokens focus).isEmpty &&
      anyShared (wordSignalTokens msg) (wordSignalTokens focus) then true
  else if 2 ≤ sharedCJKCount msg focus then true
  else false

/-- pyMin models Python's binary `min` (keep the first argument on
ties); written with an explicit comparison so it reduces in the kernel. -/
def pyMin (a b : Rat) : Rat := if b < a then b else a

/-- pyMax models Python's binary `max` on rationals. -/
def pyMax (a b : Rat) : Rat := if a < b then b else a

/-- pyMaxI models Python's binary `max` on integers. -/
def pyMaxI (a b : Int) : Int := if a < b then b else a

/-- HeartbeatCfg collects the configuration fields of `HeartbeatMonitor`. -/
structure HeartbeatCfg where
  maxHeartbeat : Rat
  wakeupGrowth : Rat
  idleGrowth : Rat
  tenseBoost : Rat
  tenseFloor : Rat
  tenseHoldSeconds : Int

/-- defaultHeartbeatCfg carries the dataclass defaults of
`HeartbeatMonitor` (100, 6, 2, 24, 60, 15*60). -/
def defaultHeartbeatCfg : HeartbeatCfg := ⟨100, 6, 2, 24, 60, 900⟩

/-- HeartbeatMS is the mutable per-scope state of `HeartbeatMonitor`:
`_heartbeat`, `_tense`, `_focus_text`, `_tense_until_ts`. -/
structure HeartbeatMS where
  heartbeat : Rat
  tense : Bool
  focusText : Str
  tenseUntilTs : Int
deriving DecidableEq

/-- growIdleHeartbeat models `_grow_idle_heartbeat`: jump to the wakeup
increment from zero, otherwise add the idle increment, clamped to max. -/
def growIdleHeartbeat (cfg : HeartbeatCfg) (s : HeartbeatMS) : HeartbeatMS :=
  if s.heartbeat ≤ 0 then
    ⟨pyMin cfg.maxHeartbeat cfg.wakeupGrowth, s.tense, s.focusText, s.tenseUntilTs⟩
  else
    ⟨pyMin cfg.maxHeartbeat (s.heartbeat + cfg.idleGrowth), s.tense, s.focusText, s.tenseUntilTs⟩

/-- raiseHeartbeat models `_raise_heartbeat(delta)`.  Note: no caller of
this helper exists anywhere in the source. -/
def raiseHeartbeat (cfg : HeartbeatCfg) (s : HeartbeatMS) (delta : Rat) : HeartbeatMS :=
  ⟨pyMin cfg.maxHeartbeat (pyMax s.heartbeat cfg.tenseFloor + delta), s.tense, s.focusText,
    s.tenseUntilTs⟩

/-- dropToZero models `_drop_to_zero`: reset to the idle state. -/
def dropToZero (_s : HeartbeatMS) : HeartbeatMS := ⟨0, false, [], 0⟩

/-- setTense models `_set_tense(focus)`: force tense and store the
stripped focus. -/
def setTense (s : HeartbeatMS) (focus : Str) : HeartbeatMS :=
  ⟨s.heartbeat, true, pyStrip focus, s.tenseUntilTs⟩

/-- markTenseHold models `_mark_tense_hold`: refresh the hold deadline to
`int(time()) + max(1, int(tense_hold_seconds))`. -/
def markTenseHold (cfg : HeartbeatCfg) (now : Int) (s : HeartbeatMS) : HeartbeatMS :=
  ⟨s.heartbeat, s.tense, s.focusText, now + pyMaxI 1 cfg.tenseHoldSeconds⟩

/-- isHoldActive models `_is_hold_active`. -/
def isHoldActive (now : Int) (s : HeartbeatMS) : Bool :=
  s.tenseUntilTs > 0 && now < s.tenseUntilTs

/-- refreshTenseFlag models `_refresh_tense_flag`: drop to idle when a
timed hold has expired. -/
def refreshTenseFlag (now : Int) (s : HeartbeatMS) : HeartbeatMS :=
  if s.tense && s.tenseUntilTs > 0 && !(isHoldActive now s) then dropToZero s else s

/-- DecideResult packages the outcome of `should_invoke_llm`: the returned
boolean, the monitor state afterwards, and whether `_persist` ran (the
store, when configured, is written with exactly that state). -/
structure DecideResult where
  engage : Bool
  state : HeartbeatMS
  persisted : Bool
deriving DecidableEq

/-- shouldInvokeLLM models `HeartbeatMonitor.should_invoke_llm(message,
is_at_message)`.  `now` models `int(self._time_fn())` and `rand` the single
draw `self._rng.random()` of the idle path. -/
def shouldInvokeLLM (cfg : HeartbeatCfg) (s : HeartbeatMS) (message : Str)
    (isAtMessage : Bool) (now : Int) (rand : Rat) : DecideResult :=
  let clean := pyStrip message
  if clean = [] then ⟨false, s, false⟩
  else if isAtMessage then
    ⟨true, markTenseHold cfg now (setTense s clean), true⟩
  else
    let s1 := refreshTenseFlag now s
    if s1.tense then
      if isHoldActive now s1 then
        if isRelated s1.focusText clean then
          ⟨true, markTenseHold cfg now (setTense s1 clean), true⟩
        else
          ⟨true, s1, true⟩
      else
        ⟨false, dropToZero s1, true⟩
    else
      let s2 := growIdleHeartbeat cfg s1
      if rand < s2.heartbeat / cfg.maxHeartbeat then
        ⟨true, setTense s2 clean, true⟩
      else
        ⟨false, s2, true⟩

/-- onLLMInvoked models `HeartbeatMonitor.on_llm_invoked`. -/
def onLLMInvoked (cfg : HeartbeatCfg) (s : HeartbeatMS) (trigger reply : Str)
    (now : Int) : HeartbeatMS :=
  let merged := pyStrip (pyStrip trigger ++ [' '] ++ pyStrip reply)
  markTenseHold cfg now (setTense s merged)

/-- pyIsAlnum models `str.isalnum()` on the character ranges this code
base stores in scope keys (ASCII letters and digits plus the CJK block);
the claims do not depend on other Unicode categories. -/
def pyIsAlnum (c : Char) : Bool :=
  (97 ≤ c.toNat && c.toNat ≤ 122) || (65 ≤ c.toNat && c.toNat ≤ 90) ||
  (48 ≤ c.toNat && c.toNat ≤ 57) || isCJK c

/-- normalizeScope models the identical `_normalize_scope` helpers of
`ContextEngine` and `MemoryPool`: strip, default empty to "default", and
replace every character that is not alphanumeric, `-` or `_` by `_`. -/
def normalizeScope (scope : Str) : Str :=
  let clean := pyStrip scope
  if clean = [] then pstr "default"
  else clean.map (fun ch => if pyIsAlnum ch || ch = '-' || ch = '_' then ch else '_')

/-- Payload models one line of a scope's `.jsonl` log file:
a JSON object carrying value, timestamp and an optional user_name.  The
newline-delimited JSON encoding is modelled by the record itself
(`json.dumps`/`json.loads` of such a record round-trips). -/
structure Payload where
  value : Str
  timestamp : Str
  userName : Option Str
deriving DecidableEq

/-- MemoryPool models `MemoryPool`: `files` is the durable per-scope log
on disk (keyed by normalized scope), `records` the in-memory
`_records_by_scope` mirror of the values. -/
structure MemoryPool where
  files : Str → List Payload
  records : Str → List Str

/-- updateFn is pointwise function update used to model dictionary
assignment. -/
def updateFn {α : Type} (f : Str → α) (k : Str) (v : α) : Str → α :=
  fun x => if x = k then v else f x

/-- emptyMemoryPool is a pool whose base directory holds no `.jsonl`
files. -/
def emptyMemoryPool : MemoryPool := ⟨fun _ => [], fun _ => []⟩

/-- loadMemoryPool models `MemoryPool.__post_init__` + `_load_file`:
replay every scope file, collecting the string `value` field of each
line, in file order. -/
def loadMemoryPool (disk : Str → List Payload) : MemoryPool :=
  ⟨disk, fun k => (disk k).map Payload.value⟩

/-- poolAppend models `MemoryPool.append(value, scope=..., timestamp=...,
user_name=...)`.  `nowTs` stands for `datetime.now(timezone.utc)
.isoformat()`; the Python truthiness of the optional arguments is kept
(`timestamp or now`, `if user_name:`). -/
def tsOrNow (timestamp : Option Str) (nowTs : Str) : Str :=
  match timestamp with
  | some t => if t = [] then nowTs else t
  | none => nowTs

/-- userNameOpt models `if user_name:` — an empty or absent user name is
omitted from the payload. -/
def userNameOpt (userName : Option Str) : Option Str :=
  match userName with
  | some u => if u = [] then none else some u
  | none => none

def poolAppend (p : MemoryPool) (value scope : Str) (timestamp : Option Str)
    (userName : Option Str) (nowTs : Str) : MemoryPool :=
  let item := pyStrip value
  if item = [] then p
  else
    let ns := normalizeScope scope
    ⟨updateFn p.files ns (p.files ns ++ [⟨item, tsOrNow timestamp nowTs, userNameOpt userName⟩]),
     updateFn p.records ns (p.records ns ++ [item])⟩

/-- takeLast returns the last `n` elements, modelling `l[-n:]` for
positive `n`. -/
def takeLast {α : Type} (n : Nat) (l : List α) : List α := l.drop (l.length - n)

/-- negSliceLast models the Python slice `l[-n:]` for an arbitrary
integer `n` (positive: suffix of length `n`; zero: the whole list;
negative: `l[(-n):]`). -/
def negSliceLast {α : Type} (n : Int) (l : List α) : List α :=
  if 0 < n then takeLast n.toNat l
  else if n = 0 then l
  else l.drop (-n).toNat

/-- poolRecent models `MemoryPool.recent(limit, scope=...)`. -/
def poolRecent (p : MemoryPool) (limit : Int) (scope : Str) : List Str :=
  if limit ≤ 0 then [] else takeLast limit.toNat (p.records (normalizeScope scope))

/-- CtxEngine models the memory-related state of `ContextEngine`:
the pool, the lazily populated `_recent_context_by_scope` dictionary and
the configured `recent_limit`. -/
structure CtxEngine where
  pool : MemoryPool
  windows : Str → Option (List Str)
  recentLimit : Int

/-- initCtxEngine is a `ContextEngine` as constructed over a pool loaded
from `disk`: the recent-context dictionary starts empty. -/
def initCtxEngine (disk : Str → List Payload) (limit : Int) : CtxEngine :=
  ⟨loadMemoryPool disk, fun _ => none, limit⟩

/-- recentContextVal is the value `_recent_context(scope)` returns for an
already-normalized scope key: the cached window, or the pool's recent
slice on first access. -/
def recentContextVal (ce : CtxEngine) (ns : Str) : List Str :=
  match ce.windows ns with
  | some w => w
  | none => poolRecent ce.pool ce.recentLimit ns

/-- rememberRaw models `ContextEngine._remember(item, scope=...,
user_name=...)`: fetch (and thereby materialize) the scope's window,
append to the pool, append to the window, and trim the window to the
recent limit when it overflows. -/
def rememberRaw (ce : CtxEngine) (item scope : Str) (userName : Option Str)
    (nowTs : Str) : CtxEngine :=
  let ns := normalizeScope scope
  let history := recentContextVal ce ns
  let pool := poolAppend ce.pool item scope none userName nowTs
  let h := history ++ [item]
  let w := if ce.recentLimit < (h.length : Int) then negSliceLast ce.recentLimit h else h
  ⟨pool, updateFn ce.windows ns (some w), ce.recentLimit⟩

/-- rememberUserMessage models `ContextEngine.remember_user_message`. -/
def rememberUserMessage (ce : CtxEngine) (msg scope : Str) (userName : Option Str)
    (nowTs : Str) : CtxEngine :=
  let clean := pyStrip msg
  if clean = [] then ce else rememberRaw ce (pstr "user: " ++ clean) scope userName nowTs

/-- rememberAssistantMessage models
`ContextEngine.remember_assistant_message`. -/
def rememberAssistantMessage (ce : CtxEngine) (msg scope : Str) (nowTs : Str) : CtxEngine :=
  let clean := pyStrip msg
  if clean = [] then ce else rememberRaw ce (pstr "assistant: " ++ clean) scope none nowTs

/-- RememberOp is one call of the `remember*` API. -/
inductive RememberOp where
  | user (msg scope : Str) (userName : Option Str) (nowTs : Str)
  | assistant (msg scope : Str) (nowTs : Str)

/-- applyRememberOp runs one `remember*` call. -/
def applyRememberOp (ce : CtxEngine) : RememberOp → CtxEngine
  | .user msg scope userName nowTs => rememberUserMessage ce msg scope userName nowTs
  | .assistant msg scope nowTs => rememberAssistantMessage ce msg scope nowTs

/-- applyRememberOps runs a sequence of `remember*` calls in order. -/
def applyRememberOps (ce : CtxEngine) (ops : List RememberOp) : CtxEngine :=
  ops.foldl applyRememberOp ce

/-- recentWindowRead is the in-memory recent window an observer sees for
`scope`: exactly what `_recent_context(scope)` yields
(`_recent_context` normalizes its argument first). -/
def recentWindowRead (ce : CtxEngine) (scope : Str) : List Str :=
  recentContextVal ce (normalizeScope scope)

/-- durableLogValues is the ordered sequence of values in a scope's
durable log file. -/
def durableLogValues (ce : CtxEngine) (scope : Str) : List Str :=
  (ce.pool.files (normalizeScope scope)).map Payload.value

/-- appendValues appends a sequence of raw values to one scope of a pool,
as `MemoryPool.append` does (no explicit timestamp or user name). -/
def appendValues (p : MemoryPool) (scope : Str) (vs : List Str) (nowTs : Str) : MemoryPool :=
  vs.foldl (fun q v => poolAppend q v scope none none nowTs) p

/-- lbraceC is the `\x7b` character. -/
def lbraceC : Char := Char.ofNat 123

/-- rbraceC is the `\x7d` character. -/
def rbraceC : Char := Char.ofNat 125

/-- listIsPref tests whether the first list is a prefix of the second. -/
def listIsPref : Str → Str → Bool
  | [], _ => true
  | _ :: _, [] => false
  | p :: ps, t :: ts => p = t && listIsPref ps ts

/-- listIsSuf tests whether the first list is a suffix of the second,
modelling `str.endswith`. -/
def listIsSuf (p t : Str) : Bool := listIsPref p.reverse t.reverse

/-- pyFindSubAux scans for the first occurrence of `pat`, carrying the
current index. -/
def pyFindSubAux : Str → Str → Nat → Option Nat
  | [], pat, i => if pat = [] then some i else none
  | c :: rest, pat, i =>
    if listIsPref pat (c :: rest) then some i else pyFindSubAux rest pat (i + 1)

/-- pyFindSub models `str.find` (with `none` for Python's -1). -/
def pyFindSub (text pat : Str) : Option Nat := pyFindSubAux text pat 0

/-- pyRFindSubAux scans for the last occurrence of `pat`. -/
def pyRFindSubAux : Str → Str → Nat → Option Nat → Option Nat
  | [], pat, i, best => if pat = [] then some i else best
  | c :: rest, pat, i, best =>
    pyRFindSubAux rest pat (i + 1) (if listIsPref pat (c :: rest) then some i else best)

/-- pyRFindSub models `str.rfind` (with `none` for Python's -1). -/
def pyRFindSub (text pat : Str) : Option Nat := pyRFindSubAux text pat 0 none

/-- pyContainsSub models Python's `pat in text`. -/
def pyContainsSub (text pat : Str) : Bool := (pyFindSub text pat).isSome

/-- pySliceN models the Python slice `text[a:b]` for non-negative
indices. -/
def pySliceN (text : Str) (a b : Nat) : Str := (text.take b).drop a

/-- pyReplaceAux replaces occurrences of `old` left to right; the fuel is
bounded by the text length since every step consumes at least one
character. -/
def pyReplaceAux (old new : Str) : Nat → Str → Str
  | 0, s => s
  | _, [] => []
  | Nat.succ fuel, c :: rest =>
    if listIsPref old (c :: rest) then new ++ pyReplaceAux old new fuel ((c :: rest).drop old.length)
    else c :: pyReplaceAux old new fuel rest

/-- pyReplace models `str.replace(old, new)` for non-empty `old` (the
only way the source uses it). -/
def pyReplace (s old new : Str) : Str :=
  if old = [] then s else pyReplaceAux old new s.length s

/-- Json models the JSON values exchanged with `json.loads`/`json.dumps`.
Numbers are modelled as integers: no claim involves fractional JSON
literals, and the model parser simply rejects them. -/
inductive Json where
  | null : Json
  | bool (b : Bool) : Json
  | num (n : Int) : Json
  | str (s : Str) : Json
  | arr (elems : List Json) : Json
  | obj (fields : List (Str × Json)) : Json

/-- objGet models `dict.get(k)` on a JSON object's field list. -/
def objGet : List (Str × Json) → Str → Option Json
  | [], _ => none
  | (k2, v) :: rest, k => if k2 = k then some v else objGet rest k

/-- objInsert models `dict[k] = v`: update in place when the key exists,
otherwise append, preserving insertion order. -/
def objInsert (fs : List (Str × Json)) (k : Str) (v : Json) : List (Str × Json) :=
  if fs.any (fun p => decide (p.1 = k)) then
    fs.map (fun p => if p.1 = k then (k, v) else p)
  else fs ++ [(k, v)]

/-- jsonWs recognises JSON's whitespace characters. -/
def jsonWs (c : Char) : Bool := c = ' ' || c = '\t' || c = '\n' || c = '\r'

/-- skipJWs drops leading JSON whitespace. -/
def skipJWs (s : Str) : Str := s.dropWhile jsonWs

/-- hexVal interprets one hexadecimal digit. -/
def hexVal (c : Char) : Option Nat :=
  if '0' ≤ c ∧ c ≤ '9' then some (c.toNat - 48)
  else if 'a' ≤ c ∧ c ≤ 'f' then some (c.toNat - 87)
  else if 'A' ≤ c ∧ c ≤ 'F' then some (c.toNat - 55)
  else none

/-- parseJStringAux parses the body of a JSON string after the opening
quote, handling the standard escapes; strict mode rejects raw control
characters.  Surrogate pairs are out of scope for the claims. -/
def parseJStringAux : Nat → Str → Str → Option (Str × Str)
  | 0, _, _ => none
  | Nat.succ fuel, s, acc =>
    match s with
    | [] => none
    | c :: rest =>
      if c = '"' then some (acc.reverse, rest)
      else if c = '\\' then
        match rest with
        | [] => none
        | e :: rest2 =>
          if e = '"' then parseJStringAux fuel rest2 ('"' :: acc)
          else if e = '\\' then parseJStringAux fuel rest2 ('\\' :: acc)
          else if e = '/' then parseJStringAux fuel rest2 ('/' :: acc)
          else if e = 'b' then parseJStringAux fuel rest2 (Char.ofNat 8 :: acc)
          else if e = 'f' then parseJStringAux fuel rest2 (Char.ofNat 12 :: acc)
          else if e = 'n' then parseJStringAux fuel rest2 ('\n' :: acc)
          else if e = 'r' then parseJStringAux fuel rest2 ('\r' :: acc)
          else if e = 't' then parseJStringAux fuel rest2 ('\t' :: acc)
          else if e = 'u' then
            match rest2 with
            | h1 :: h2 :: h3 :: h4 :: rest3 =>
              match hexVal h1, hexVal h2, hexVal h3, hexVal h4 with
              | some a, some b, some c2, some d =>
                parseJStringAux fuel rest3 (Char.ofNat (a * 4096 + b * 256 + c2 * 16 + d) :: acc)
              | _, _, _, _ => none
            | _ => none
          else none
      else if c.toNat < 32 then none
      else parseJStringAux fuel rest (c :: acc)

/-- digitsToNat folds a digit run into a natural number. -/
def digitsToNat (ds : Str) : Nat := ds.foldl (fun n c => n * 10 + (c.toNat - 48)) 0

/-- parseJNumber parses an integer JSON literal (optional minus, no
leading zeros); fractional or exponent forms are rejected by the model. -/
def parseJNumber (s : Str) : Option (Json × Str) :=
  let negs := match s with
    | c :: r => if c = '-' then (true, r) else (false, s)
    | [] => (false, s)
  let ds := negs.2.takeWhile Char.isDigit
  let rest := negs.2.dropWhile Char.isDigit
  if ds = [] then none
  else if 1 < ds.length ∧ ds.head? = some '0' then none
  else
    let n : Int := (digitsToNat ds : Nat)
    let v := Json.num (if negs.1 then -n else n)
    match rest with
    | c :: _ => if c = '.' ∨ c = 'e' ∨ c = 'E' then none else some (v, rest)
    | [] => some (v, rest)

/-- JTask is the worklist item of the fueled JSON parser: a value to
parse, the members of an object after its first key, or the items of an
array after its opening bracket. -/
inductive JTask where
  | value (s : Str)
  | members (s : Str) (acc : List (Str × Json))
  | items (s : Str) (acc : List Json)

/-- jsonParseStep is a recursive-descent JSON parser (modelling
`json.loads`), written with explicit fuel so that every application
reduces inside the kernel. -/
def jsonParseStep : Nat → JTask → Option (Json × Str)
  | 0, _ => none
  | Nat.succ fuel, JTask.value s =>
    match skipJWs s with
    | [] => none
    | c :: rest =>
      if c = lbraceC then
        match skipJWs rest with
        | c2 :: rest2 =>
          if c2 = rbraceC then some (Json.obj [], rest2)
          else jsonParseStep fuel (JTask.members (c2 :: rest2) [])
        | [] => none
      else if c = '[' then
        match skipJWs rest with
        | c2 :: rest2 =>
          if c2 = ']' then some (Json.arr [], rest2)
          else jsonParseStep fuel (JTask.items (c2 :: rest2) [])
        | [] => none
      else if c = '"' then
        match parseJStringAux (rest.length + 1) rest [] with
        | some (body, r) => some (Json.str body, r)
        | none => none
      else if listIsPref (pstr "true") (c :: rest) then some (Json.bool true, (c :: rest).drop 4)
      else if listIsPref (pstr "false") (c :: rest) then some (Json.bool false, (c :: rest).drop 5)
      else if listIsPref (pstr "null") (c :: rest) then some (Json.null, (c :: rest).drop 4)
      else parseJNumber (c :: rest)
  | Nat.succ fuel, JTask.members s acc =>
    match skipJWs s with
    | [] => none
    | k :: rest =>
      if k = '"' then
        match parseJStringAux (rest.length + 1) rest [] with
        | some (key, r1) =>
          match skipJWs r1 with
          | c :: r2 =>
            if c = ':' then
              match jsonParseStep fuel (JTask.value r2) with
              | some (v, r3) =>
                let acc2 := objInsert acc key v
                match skipJWs r3 with
                | c2 :: r4 =>
                  if c2 = ',' then jsonParseStep fuel (JTask.members r4 acc2)
                  else if c2 = rbraceC then some (Json.obj acc2, r4)
                  else none
                | [] => none
              | none => none
            else none
          | [] => none
        | none => none
      else none
  | Nat.succ fuel, JTask.items s acc =>
    match jsonParseStep fuel (JTask.value s) with
    | some (v, r1) =>
      match skipJWs r1 with
      | c :: r2 =>
        if c = ',' then jsonParseStep fuel (JTask.items r2 (acc ++ [v]))
        else if c = ']' then some (Json.arr (acc ++ [v]), r2)
        else none
      | [] => none
    | none => none

/-- jsonLoads models `json.loads`: parse one value and require only
whitespace to remain. -/
def jsonLoads (s : Str) : Option Json :=
  match jsonParseStep (4 * s.length + 8) (JTask.value s) with
  | some (v, rest) => if skipJWs rest = [] then some v else none
  | none => none

mutual

/-- jsonSize is a hand-rolled structural size for `Json`, used as fuel
for the traversals below. -/
def jsonSize : Json → Nat
  | .null => 1
  | .bool _ => 1
  | .num _ => 1
  | .str _ => 1
  | .arr xs => 1 + jsonSizeList xs
  | .obj fs => 1 + jsonSizeFields fs

/-- jsonSizeList sizes a list of JSON values. -/
def jsonSizeList : List Json → Nat
  | [] => 1
  | v :: rest => 1 + jsonSize v + jsonSizeList rest

/-- jsonSizeFields sizes an object's field list. -/
def jsonSizeFields : List (Str × Json) → Nat
  | [] => 1
  | (_, v) :: rest => 1 + jsonSize v + jsonSizeFields rest

end

/-- hexDigitChar renders one hexadecimal digit. -/
def hexDigitChar (n : Nat) : Char :=
  if n < 10 then Char.ofNat (48 + n) else Char.ofNat (87 + n)

/-- jsonEscapeChar renders one character of a dumped JSON string
(`ensure_ascii=False`). -/
def jsonEscapeChar (c : Char) : Str :=
  if c = '"' then pstr "\\\""
  else if c = '\\' then pstr "\\\\"
  else if c = '\n' then pstr "\\n"
  else if c = '\t' then pstr "\\t"
  else if c = '\r' then pstr "\\r"
  else if c.toNat = 8 then pstr "\\b"
  else if c.toNat = 12 then pstr "\\f"
  else if c.toNat < 32 then pstr "\\u00" ++ [hexDigitChar (c.toNat / 16), hexDigitChar (c.toNat % 16)]
  else [c]

/-- jsonDumpStr renders a JSON string literal. -/
def jsonDumpStr (s : Str) : Str := '"' :: ((s.map jsonEscapeChar).flatten ++ ['"'])

/-- intToStr renders an integer in decimal. -/
def intToStr (i : Int) : Str :=
  if i < 0 then '-' :: Nat.toDigits 10 (-i).toNat else Nat.toDigits 10 i.toNat

/-- jsonDumpsF renders a JSON value with Python's default separators and
`ensure_ascii=False`; the fuel is the structural size of the value. -/
def jsonDumpsF : Nat → Json → Str
  | 0, _ => []
  | Nat.succ fuel, j =>
    match j with
    | .null => pstr "null"
    | .bool b => if b then pstr "true" else pstr "false"
    | .num n => intToStr n
    | .str s => jsonDumpStr s
    | .arr xs => '[' :: (List.intercalate (pstr ", ") (xs.map (jsonDumpsF fuel)) ++ [']'])
    | .obj fs =>
      lbraceC :: (List.intercalate (pstr ", ")
        (fs.map (fun p => jsonDumpStr p.1 ++ pstr ": " ++ jsonDumpsF fuel p.2)) ++ [rbraceC])

/-- jsonDumps models `json.dumps(..., ensure_ascii=False)`. -/
def jsonDumps (j : Json) : Str := jsonDumpsF (jsonSize j) j

/-- mergeTypeToolCall models the dict literal that puts the key type with
value tool_call first and then splats the loaded fields over it. -/
def mergeTypeToolCall (fs : List (Str × Json)) : List (Str × Json) :=
  fs.foldl (fun acc p => objInsert acc p.1 p.2) [(pstr "type", Json.str (pstr "tool_call"))]

/-- toolCallRepair models the `[TOOL_CALL]` compatibility branch of
`AgentService._parse_json`: slice the block, rewrite `=>` arrows and the
unquoted `tool`/`arguments` keys, wrap in braces if needed, and re-parse. -/
def toolCallRepair (text : Str) : Option (List (Str × Json)) :=
  if pyContainsSub text (pstr "[TOOL_CALL]") ∧ pyContainsSub text (pstr "[/TOOL_CALL]") then
    match pyFindSub text (pstr "[TOOL_CALL]"), pyRFindSub text (pstr "[/TOOL_CALL]") with
    | some startTag, some endTag =>
      if startTag < endTag then
        let b0 := pyStrip (pySliceN text (startTag + (pstr "[TOOL_CALL]").length) endTag)
        let b1 := pyReplace b0 (pstr "=>") (pstr ":")
        let b2 := pyReplace b1 (pstr "\x7btool :") (pstr "\x7b\"tool\":")
        let b3 := pyReplace b2 (pstr ", arguments :") (pstr ", \"arguments\":")
        let b4 := if listIsPref (pstr "\x7b") b3 then b3 else pstr "\x7b" ++ b3
        let b5 := if listIsSuf (pstr "\x7d") b4 then b4 else b4 ++ pstr "\x7d"
        match jsonLoads b5 with
        | some (Json.obj fs) => some (mergeTypeToolCall fs)
        | _ => none
      else none
    | _, _ => none
  else none

/-- braceFallback models the final branch of `_parse_json`: parse the
substring between the first `\x7b` and the last `\x7d`. -/
def braceFallback (text : Str) : Option (List (Str × Json)) :=
  match pyFindSub text [lbraceC], pyRFindSub text [rbraceC] with
  | some start, some stop =>
    if stop ≤ start then none
    else
      match jsonLoads (pySliceN text start (stop + 1)) with
      | some (Json.obj fs) => some fs
      | _ => none
  | _, _ => none

/-- parseJsonModel models `AgentService._parse_json(raw)`: strict parse
of the stripped text, then the `[TOOL_CALL]` repair, then the brace
fallback; only `dict` results are returned. -/
def parseJsonModel (raw : Str) : Option (List (Str × Json)) :=
  let text := pyStrip raw
  if text = [] then none
  else
    match jsonLoads text with
    | some (Json.obj fs) => some fs
    | _ =>
      match toolCallRepair text with
      | some fs => some fs
      | none => braceFallback text

/-- FindTask is the worklist item of the fueled payload search: a value,
the values of an object, or the items of a list. -/
inductive FindTask where
  | one (v : Json)
  | fields (fs : List (Str × Json))
  | list (xs : List Json)

/-- findReplyStep models `AgentService._find_reply_payload`: search a
JSON value recursively for a dict with a boolean `should_reply` and a
string-or-null `reply`; the payload is returned as the pair
`(should_reply, reply or "")`. -/
def findReplyStep : Nat → FindTask → Option (Bool × Str)
  | 0, _ => none
  | Nat.succ fuel, FindTask.one v =>
    match v with
    | Json.obj fs =>
      match objGet fs (pstr "should_reply"), objGet fs (pstr "reply") with
      | some (Json.bool b), some (Json.str r) => some (b, r)
      | some (Json.bool b), some Json.null => some (b, [])
      | some (Json.bool b), none => some (b, [])
      | _, _ => findReplyStep fuel (FindTask.fields fs)
    | Json.arr xs => findReplyStep fuel (FindTask.list xs)
    | _ => none
  | Nat.succ fuel, FindTask.fields fs =>
    match fs with
    | [] => none
    | (_, v) :: rest =>
      match findReplyStep fuel (FindTask.one v) with
      | some p => some p
      | none => findReplyStep fuel (FindTask.fields rest)
  | Nat.succ fuel, FindTask.list xs =>
    match xs with
    | [] => none
    | v :: rest =>
      match findReplyStep fuel (FindTask.one v) with
      | some p => some p
      | none => findReplyStep fuel (FindTask.list rest)

/-- findReplyPayload wraps the fueled search with enough fuel for the
whole value. -/
def findReplyPayload (v : Json) : Option (Bool × Str) :=
  findReplyStep (2 * jsonSize v + 2) (FindTask.one v)

/-- scanContentItems models the loop of `_extract_reply_payload` over
`value["content"]`: items that are dicts with a string `text` field are
parsed as JSON and searched for a payload. -/
def scanContentItems : List Json → Option (Bool × Str)
  | [] => none
  | item :: rest =>
    match item with
    | Json.obj fs =>
      match objGet fs (pstr "text") with
      | some (Json.str t) =>
        match jsonLoads t with
        | some parsed =>
          match findReplyPayload parsed with
          | some p => some p
          | none => scanContentItems rest
        | none => scanContentItems rest
      | _ => scanContentItems rest
    | _ => scanContentItems rest

/-- extractReplyPayload models `AgentService._extract_reply_payload`. -/
def extractReplyPayload (v : Json) : Option (Bool × Str) :=
  match findReplyPayload v with
  | some p => some p
  | none =>
    match v with
    | Json.obj fs =>
      match objGet fs (pstr "content") with
      | some (Json.arr items) => scanContentItems items
      | _ => none
    | _ => none

/-- pyTruthy models Python's `bool(...)` on a JSON value. -/
def pyTruthy : Json → Bool
  | Json.null => false
  | Json.bool b => b
  | Json.num n => n != 0
  | Json.str s => !s.isEmpty
  | Json.arr xs => !xs.isEmpty
  | Json.obj fs => !fs.isEmpty

/-- extractFinalReply models `AgentService._extract_final_reply
(tool_result, arguments)`: honor a payload embedded in the tool result
when one is found, otherwise fall back to the model-supplied arguments
with `should_reply` defaulting to true. -/
def extractFinalReply (toolResult : List (Str × Json)) (arguments : List (Str × Json)) : Str :=
  match extractReplyPayload (Json.obj toolResult) with
  | none =>
    let sr := pyTruthy ((objGet arguments (pstr "should_reply")).getD (Json.bool true))
    if !sr then []
    else
      match objGet arguments (pstr "content") with
      | some (Json.str c) => pyStrip c
      | _ => []
  | some (b, r) => if b = false then [] else pyStrip r

/-- AgentCfg carries the `AgentService` fields used by the tool loop:
`max_steps` and `final_reply_tool`. -/
structure AgentCfg where
  maxSteps : Nat
  finalReplyTool : Str

/-- defaultAgentCfg carries the dataclass defaults (3, "emit_reply"). -/
def defaultAgentCfg : AgentCfg := ⟨3, pstr "emit_reply"⟩

/-- agentSystemPrompt is the fixed system instruction of
`_run_tool_loop`. -/
def agentSystemPrompt (cfg : AgentCfg) : Str :=
  pstr "你是一个工具编排器，不负责直接输出给用户。你必须根据用户问题决定是否调用工具。当你准备结束时，必须调用 `" ++
  cfg.finalReplyTool ++
  pstr "` 工具来提交最终输出，并通过 should_reply=true/false 决定是否真的回复。每一轮只允许输出一个 JSON 对象，格式固定为:\x7b\"type\":\"tool_call\",\"tool\":\"工具名\",\"arguments\":\x7b...\x7d\x7d禁止输出 [TOOL_CALL] 包装、解释文字、Markdown 或任何额外文本。当调用最终回复工具时，arguments.content 必须符合聊天风格：1-3 句话、尽量少于 80 字、自然随意、无标题无分点无 Markdown。"

/-- initialToolPrompt is the first round's user prompt. -/
def initialToolPrompt (content : Str) (cachedTools : List Json) : Str :=
  pstr "可用工具:\n" ++ jsonDumps (Json.arr cachedTools) ++ pstr "\n\n用户问题:\n" ++ content

/-- retryPrompt is the correction prompt after unparseable output. -/
def retryPrompt (cfg : AgentCfg) : Str :=
  pstr "你上一次输出不符合协议。现在只能输出一个合法 JSON: \x7b\"type\":\"tool_call\",\"tool\":\"" ++
  cfg.finalReplyTool ++
  pstr "\",\"arguments\":\x7b\"content\":\"...\",\"should_reply\":true,\"reason\":\"...\"\x7d\x7d"

/-- protoPrompt is the correction prompt after a wrong `type`. -/
def protoPrompt : Str :=
  pstr "协议错误：type 必须是 tool_call。请立即输出合法 JSON，并调用最终回复工具。"

/-- emptyToolPrompt is the correction prompt after a missing tool name. -/
def emptyToolPrompt (cfg : AgentCfg) : Str :=
  pstr "协议错误：tool 不能为空。请调用 `" ++ cfg.finalReplyTool ++ pstr "` 并给出合法 arguments。"

/-- toolFailPrompt is the recovery prompt after an `MCPError`. -/
def toolFailPrompt (e content : Str) : Str :=
  pstr "工具调用失败。请改用其他工具，或直接调用最终回复工具结束。\n失败原因: " ++ e ++
  pstr "\n用户问题: " ++ content

/-- continuePrompt folds a tool result into the next round. -/
def continuePrompt (content name resultText : Str) : Str :=
  pstr "继续决策下一步。若信息已足够，请调用最终回复工具。输出格式仍然必须是 tool_call JSON。\n\n用户问题: " ++
  content ++ pstr "\n刚调用工具: " ++ name ++ pstr "\n工具结果: " ++ resultText

/-- isToolCallType models the check `parsed.get("type") != "tool_call"`
(negated). -/
def isToolCallType (parsed : List (Str × Json)) : Bool :=
  match objGet parsed (pstr "type") with
  | some (Json.str t) => t = pstr "tool_call"
  | _ => false

/-- toolNameStr extracts `parsed.get("tool")` when it is a string. -/
def toolNameStr (parsed : List (Str × Json)) : Option Str :=
  match objGet parsed (pstr "tool") with
  | some (Json.str s) => some s
  | _ => none

/-- argumentsOf models `parsed.get("arguments")` coerced to a dict
(the empty dict when absent or not a dict). -/
def argumentsOf (parsed : List (Str × Json)) : List (Str × Json) :=
  match objGet parsed (pstr "arguments") with
  | some (Json.obj fs) => fs
  | _ => []

/-- ToolCallRec records one `mcp_client.call_tool` invocation: the loop
round that made it, the tool name and the arguments. -/
structure ToolCallRec where
  round : Nat
  name : Str
  args : List (Str × Json)

/-- runToolLoopAux models the `for` body of `AgentService._run_tool_loop`.
`outputs i prompt` is the LLM response of round `i` (an oracle: the model
may answer anything), and `tools i name args` the MCP result or
`MCPError` text of a call made in round `i`.  Besides the returned reply
string the model collects the trace of tool invocations, which the
Python code performs as side effects. -/
def runToolLoopAux (cfg : AgentCfg) (outputs : Nat → Str → Str)
    (tools : Nat → Str → List (Str × Json) → Except Str (List (Str × Json)))
    (content : Str) : Nat → Nat → Str → Str × List ToolCallRec
  | 0, _, _ => ([], [])
  | Nat.succ fuel, i, prompt =>
    let raw := outputs i prompt
    match parseJsonModel raw with
    | none => runToolLoopAux cfg outputs tools content fuel (i + 1) (retryPrompt cfg)
    | some parsed =>
      if !isToolCallType parsed then
        runToolLoopAux cfg outputs tools content fuel (i + 1) protoPrompt
      else
        match toolNameStr parsed with
        | none => runToolLoopAux cfg outputs tools content fuel (i + 1) (emptyToolPrompt cfg)
        | some name =>
          if pyStrip name = [] then
            runToolLoopAux cfg outputs tools content fuel (i + 1) (emptyToolPrompt cfg)
          else
            let args := argumentsOf parsed
            match tools i name args with
            | Except.error e =>
              let rest := runToolLoopAux cfg outputs tools content fuel (i + 1) (toolFailPrompt e content)
              (rest.1, ⟨i, name, args⟩ :: rest.2)
            | Except.ok result =>
              if name = cfg.finalReplyTool then
                (extractFinalReply result args, [⟨i, name, args⟩])
              else
                let rest := runToolLoopAux cfg outputs tools content fuel (i + 1)
                  (continuePrompt content name (jsonDumps (Json.obj result)))
                (rest.1, ⟨i, name, args⟩ :: rest.2)

/-- runToolLoop models `AgentService._run_tool_loop(content, ...)`; the
loop runs `max_steps` rounds and, absent a terminal tool call, falls
through to `return ""`. -/
def runToolLoop (cfg : AgentCfg) (outputs : Nat → Str → Str)
    (tools : Nat → Str → List (Str × Json) → Except Str (List (Str × Json)))
    (content : Str) (cachedTools : List Json) : Str × List ToolCallRec :=
  runToolLoopAux cfg outputs tools content cfg.maxSteps 0 (initialToolPrompt content cachedTools)

/-- shouldProcessMessage models `Router.should_process_message`; the
`allowed_group_ids` set is modelled as a list used only through
membership and emptiness. -/
def shouldProcessMessage (allowed : List Int) (source : Str) (groupId : Option Int) : Bool :=
  if source ≠ pstr "qq_group" then true
  else if allowed = [] then true
  else
    match groupId with
    | none => false
    | some g => decide (g ∈ allowed)

/-- normalizeTextModel models `Router.normalize_text`. -/
def normalizeTextModel (msg : Option Str) : Option Str :=
  match msg with
  | none => none
  | some m =>
    let clean := pyStrip m
    if clean = [] then none else some clean

/-- wfScope models `MessageWorkflow._scope`. -/
def wfScope (source : Str) (groupId : Option Int) : Str :=
  match groupId with
  | some g =>
    if source = pstr "qq_group" then pstr "qq_group_" ++ intToStr g
    else if source = [] then pstr "default" else source
  | none => if source = [] then pstr "default" else source

/-- WfAction is one observable step of `MessageWorkflow.process`: a hook
event emission or a call into the context engine / router ports.  Event
payloads are elided; the recorded texts and scopes carry everything the
claims consult. -/
inductive WfAction where
  | emitEvent (name : Str)
  | handleStructured
  | snapshot (scope : Str)
  | decideCall (msg scope : Str)
  | composeCall (msg scope : Str)
  | rememberUser (msg scope : Str)
  | generate (content : Str) (isAt : Bool) (replyMode : Str)
  | rememberAssistant (msg scope : Str)
  | onInvoked (trigger reply scope : Str)
deriving DecidableEq

/-- WfPorts fixes, for one `process` invocation, what the stateful
collaborators answer: the engagement decision, the pre-decision tense
snapshot, the composed context, the generation reply and the structured
command response. -/
structure WfPorts where
  decision : Bool
  tenseBefore : Bool
  composed : Str
  reply : Str
  structuredResponse : Str

/-- wfReplyMode models the reply-mode selection of
`MessageWorkflow.process`: tense when directly addressed or the scope was
already tense before the decision, otherwise auto. -/
def wfReplyMode (atUser tenseBefore : Bool) : Str :=
  if atUser || tenseBefore then pstr "tense" else pstr "auto"

/-- wfProcess models `MessageWorkflow.process`, returning the optional
reply together with the ordered trace of side effects. -/
def wfProcess (allowed : List Int) (ports : WfPorts) (msg : Option Str) (atUser : Bool)
    (hasCommand : Bool) (source : Str) (groupId : Option Int) : Option Str × List WfAction :=
  if hasCommand then
    (some ports.structuredResponse, [WfAction.handleStructured, WfAction.emitEvent (pstr "router.command")])
  else if !(shouldProcessMessage allowed source groupId) then
    (none, [WfAction.emitEvent (pstr "adapter.ignore")])
  else
    match normalizeTextModel msg with
    | none => (none, [WfAction.emitEvent (pstr "adapter.ignore")])
    | some clean =>
      let scope := wfScope source groupId
      let replyMode := wfReplyMode atUser ports.tenseBefore
      let pre := [WfAction.emitEvent (pstr "adapter.captured"), WfAction.snapshot scope,
                  WfAction.decideCall clean scope, WfAction.snapshot scope,
                  WfAction.emitEvent (pstr "heartbeat.checked")]
      if !ports.decision then
        (none, pre ++ [WfAction.rememberUser clean scope, WfAction.emitEvent (pstr "context.user_recorded")])
      else
        let t2 := pre ++ [WfAction.composeCall clean scope, WfAction.rememberUser clean scope,
                          WfAction.emitEvent (pstr "context.composed"),
                          WfAction.generate ports.composed atUser replyMode]
        if pyStrip ports.reply = [] then
          (none, t2 ++ [WfAction.emitEvent (pstr "workflow.no_reply")])
        else
          (some ports.reply, t2 ++ [WfAction.rememberAssistant ports.reply scope,
                                    WfAction.onInvoked clean ports.reply scope,
                                    WfAction.emitEvent (pstr "workflow.replied")])

/-- relatedSpec restates the relatedness rule in the words of claim C6:
the focus text is empty, or the word-token sets intersect, or the CJK
character sets share at least two characters. -/
def relatedSpec (focus msg : Str) : Prop :=
  focus = [] ∨ (∃ w, w ∈ wordSignalTokens msg ∧ w ∈ wordSignalTokens focus) ∨
    2 ≤ sharedCJKCount msg focus

/-- ctxInv is the inductive invariant for claim C4: the in-memory records
mirror the durable files, and every materialized window is the last-N
slice of its scope's records. -/
def ctxInv (ce : CtxEngine) : Prop :=
  (∀ k, ce.pool.records k = (ce.pool.files k).map Payload.value) ∧
  (∀ k w, ce.windows k = some w → w = takeLast ce.recentLimit.toNat (ce.pool.records k))

/-!  Helper lemmas about the Python string primitives. -/

theorem pyStrip_as_rdrop (l : Str) :
    pyStrip l = List.rdropWhile pySpace (l.dropWhile pySpace) := rfl

theorem dropWhile_eq_self_of_head {p : Char → Bool} {l : Str}
    (h : ∀ c, l.head? = some c → p c = false) : l.dropWhile p = l := by
  cases l with
  | nil => rfl
  | cons a tl =>
    rw [List.dropWhile_cons]
    simp [h a rfl]

theorem head_not_of_dropWhile_eq_self {p : Char → Bool} {l : Str} (h : l.dropWhile p = l) :
    ∀ c, l.head? = some c → p c = false := by
  intro c hc
  cases l with
  | nil => simp at hc
  | cons a tl =>
    have hac : a = c := by simpa using hc
    subst hac
    rw [List.dropWhile_cons] at h
    by_cases hp : p a = true
    · rw [if_pos hp] at h
      have hlen := congrArg List.length h
      have hle : (tl.dropWhile p).length ≤ tl.length := (List.dropWhile_suffix p).sublist.length_le
      simp at hlen
      omega
    · simpa using hp

theorem pyStrip_head_not (l : Str) : ∀ c, (pyStrip l).head? = some c → pySpace c = false := by
  intro c hc
  have hm : (l.dropWhile pySpace).dropWhile pySpace = l.dropWhile pySpace :=
    List.dropWhile_idempotent _ _
  apply head_not_of_dropWhile_eq_self hm
  obtain ⟨t, ht⟩ := List.rdropWhile_prefix pySpace (l.dropWhile pySpace)
  rw [pyStrip_as_rdrop] at hc
  rw [← ht]
  cases hx : List.rdropWhile pySpace (l.dropWhile pySpace) with
  | nil => rw [hx] at hc; simp at hc
  | cons a tl =>
    rw [hx] at hc
    simpa using hc

theorem pyStrip_getLast_not (l : Str) :
    ∀ c, (pyStrip l).getLast? = some c → pySpace c = false := by
  intro c hc
  have hne : pyStrip l ≠ [] := by
    intro h0
    rw [h0] at hc
    simp at hc
  rw [pyStrip_as_rdrop] at hc hne
  have hlast := List.rdropWhile_last_not pySpace (l.dropWhile pySpace) hne
  have hg := List.getLast?_eq_getLast_of_ne_nil hne
  rw [hc] at hg
  simp only [Option.some.injEq] at hg
  rw [← hg] at hlast
  simpa using hlast

theorem pyStrip_idem (l : Str) : pyStrip (pyStrip l) = pyStrip l := by
  rw [pyStrip_as_rdrop (pyStrip l), dropWhile_eq_self_of_head (pyStrip_head_not l),
    pyStrip_as_rdrop l]
  exact List.rdropWhile_idempotent _ _

theorem pyStrip_eq_self {l : Str} (h1 : ∀ c, l.head? = some c → pySpace c = false)
    (h2 : ∀ c, l.getLast? = some c → pySpace c = false) : pyStrip l = l := by
  rw [pyStrip_as_rdrop, dropWhile_eq_self_of_head h1]
  rw [List.rdropWhile_eq_self_iff]
  intro hl
  have := h2 (l.getLast hl) (List.getLast?_eq_getLast_of_ne_nil hl)
  simp [this]

theorem pyStrip_eq_self_of_all {l : Str} (h : ∀ c ∈ l, pySpace c = false) : pyStrip l = l := by
  apply pyStrip_eq_self
  · intro c hc
    exact h c (List.mem_of_mem_head? hc)
  · intro c hc
    obtain ⟨hne, hg⟩ := List.mem_getLast?_eq_getLast hc
    exact h c (hg ▸ List.getLast_mem hne)

theorem pyStrip_cons_append (w : Char) (pre msg : Str) (hw : pySpace w = false)
    (h : pyStrip msg ≠ []) :
    pyStrip (w :: pre ++ pyStrip msg) = w :: pre ++ pyStrip msg := by
  apply pyStrip_eq_self
  · intro c hc
    have hcw : w = c := by simpa using hc
    exact hcw ▸ hw
  · intro c hc
    have e : (w :: pre ++ pyStrip msg).getLast? = (pyStrip msg).getLast? := by
      rw [show w :: pre ++ pyStrip msg = (w :: pre) ++ pyStrip msg from rfl]
      exact List.getLast?_append_of_ne_nil _ h
    exact pyStrip_getLast_not msg c (e ▸ hc)

/-!  Claim C6 — the relatedness test. -/

theorem anyShared_iff (xs ys : List Str) :
    anyShared xs ys = true ↔ ∃ x, x ∈ xs ∧ x ∈ ys := by
  simp [anyShared, List.any_eq_true]

/-- C6: for every message and focus text, `_is_related` holds iff the
focus text is empty, or the lowercase word-token sets (length ≥ 2)
intersect, or the CJK character sets share at least 2 characters. -/
theorem isRelated_iff_relatedSpec (focus msg : Str) :
    isRelated focus msg = true ↔ relatedSpec focus msg := by
  unfold isRelated relatedSpec
  by_cases hf : focus = []
  · simp [hf]
  · rw [if_neg hf]
    by_cases hA : (!(wordSignalTokens msg).isEmpty && !(wordSignalTokens focus).isEmpty &&
        anyShared (wordSignalTokens msg) (wordSignalTokens focus)) = true
    · rw [if_pos hA]
      constructor
      · intro _
        have hs : anyShared (wordSignalTokens msg) (wordSignalTokens focus) = true := by
          simp only [Bool.and_eq_true] at hA
          exact hA.2
        exact Or.inr (Or.inl ((anyShared_iff _ _).mp hs))
      · intro _
        rfl
    · rw [if_neg hA]
      by_cases hB : 2 ≤ sharedCJKCount msg focus
      · rw [if_pos hB]
        constructor
        · intro _
          exact Or.inr (Or.inr hB)
        · intro _
          rfl
      · rw [if_neg hB]
        constructor
        · intro h
          cases h
        · intro h0
          rcases h0 with h0 | h0 | h0
          · exact absurd h0 hf
          · obtain ⟨w, hwm, hwf⟩ := h0
            apply absurd _ hA
            simp only [Bool.and_eq_true, Bool.not_eq_true']
            exact ⟨⟨List.isEmpty_eq_false.mpr (List.ne_nil_of_mem hwm),
              List.isEmpty_eq_false.mpr (List.ne_nil_of_mem hwf)⟩,
              (anyShared_iff _ _).mpr ⟨w, hwm, hwf⟩⟩
          · exact absurd h0 hB

/-!  Claim C9 — repair of the malformed bracketed tool call. -/

/-- C9: given the malformed bracketed output wrapping arrow-style
key separators between the TOOL_CALL delimiters, with concrete
JSON-compatible argument values, `_parse_json` repairs the block and
returns a dict with type tool_call, the tool name and the arguments. -/
theorem parse_repairs_bracketed_tool_call :
    parseJsonModel (pstr "[TOOL_CALL]\x7btool => \"emit_reply\", arguments => \x7b\"content\": \"hi\", \"should_reply\": true\x7d\x7d[/TOOL_CALL]") =
      some [(pstr "type", Json.str (pstr "tool_call")),
            (pstr "tool", Json.str (pstr "emit_reply")),
            (pstr "arguments", Json.obj [(pstr "content", Json.str (pstr "hi")),
              (pstr "should_reply", Json.bool true)])] := rfl

/-!  Claim C10 — admission. -/

/-- C10: `should_process_message` passes every non-"qq_group" source;
for "qq_group" it passes everything when the allowed set is empty, and
otherwise passes exactly the present group ids that are members (a
missing group id is rejected). -/
theorem should_process_message_iff (allowed : List Int) (source : Str) (groupId : Option Int) :
    shouldProcessMessage allowed source groupId = true ↔
      (source ≠ pstr "qq_group" ∨ allowed = [] ∨ ∃ g, groupId = some g ∧ g ∈ allowed) := by
  unfold shouldProcessMessage
  by_cases hs : source ≠ pstr "qq_group"
  · simp [hs]
  · rw [if_neg hs]
    have hseq : source = pstr "qq_group" := not_not.mp hs
    by_cases ha : allowed = []
    · simp [ha]
    · rw [if_neg ha]
      cases groupId with
      | none => simp [hseq, ha]
      | some g => simp [hseq, ha]

/-!  Claim C3 — directed messages. -/

/-- C3 counterexample: a directed decide on a whitespace-only message
returns engage=false without touching or persisting the state, refuting
"for every message ... returns engage=true". -/
theorem direct_decide_empty_cex :
    shouldInvokeLLM defaultHeartbeatCfg ⟨37, false, pstr "x", 0⟩ (pstr "  ") true 50 0 =
      ⟨false, ⟨37, false, pstr "x", 0⟩, false⟩ := rfl

/-- C3 (amended): for every message that is non-empty after trimming, a
directed decide engages regardless of prior arousal: tense is forced, the
focus becomes the trimmed message, the hold deadline becomes
now + max(1, holdSeconds), and the state is persisted. -/
theorem direct_decide_engages (cfg : HeartbeatCfg) (s : HeartbeatMS) (msg : Str)
    (now : Int) (rand : Rat) (h : pyStrip msg ≠ []) :
    shouldInvokeLLM cfg s msg true now rand =
      ⟨true, ⟨s.heartbeat, true, pyStrip msg, now + pyMaxI 1 cfg.tenseHoldSeconds⟩, true⟩ := by
  simp only [shouldInvokeLLM, markTenseHold, setTense]
  rw [if_neg h]
  simp [pyStrip_idem]

/-- C3 witness: the amended theorem applied at a concrete directed
message with non-zero prior state. -/
theorem direct_decide_engages_witness :
    pyStrip (pstr " hello ") ≠ [] ∧
    shouldInvokeLLM defaultHeartbeatCfg ⟨12, false, pstr "x", 0⟩ (pstr " hello ") true 50 0 =
      ⟨true, ⟨12, true, pstr "hello", 950⟩, true⟩ := by
  refine ⟨by decide, ?_⟩
  rw [direct_decide_engages defaultHeartbeatCfg ⟨12, false, pstr "x", 0⟩ (pstr " hello ") 50 0
    (by decide)]
  decide

/-!  Claim C5 — engagement does not raise arousal to floor + boost. -/

/-- C5 counterexample: engaging from idle via a directed message leaves
arousal at 0, while the claimed formula min(max, max(arousal, floor) +
boost) — the dead `_raise_heartbeat` — would give 84. -/
theorem engagement_no_floor_boost_cex :
    (shouldInvokeLLM defaultHeartbeatCfg ⟨0, false, [], 0⟩ (pstr "hi") true 0 0).engage = true ∧
    (shouldInvokeLLM defaultHeartbeatCfg ⟨0, false, [], 0⟩ (pstr "hi") true 0 0).state.heartbeat = 0 ∧
    (raiseHeartbeat defaultHeartbeatCfg ⟨0, false, [], 0⟩ defaultHeartbeatCfg.tenseBoost).heartbeat = 84 ∧
    (0 : Rat) ≠ 84 := by
  refine ⟨rfl, rfl, ?_, by norm_num⟩
  show pyMin defaultHeartbeatCfg.maxHeartbeat
    (pyMax (0 : Rat) defaultHeartbeatCfg.tenseFloor + defaultHeartbeatCfg.tenseBoost) = 84
  norm_num [pyMin, pyMax, defaultHeartbeatCfg]

/-- C5 (amended): no path of `should_invoke_llm` applies the floor+boost
raise: after any decision the arousal is unchanged, or grown by the idle
rule (from the previous value or from zero), or reset to zero. -/
theorem arousal_after_decide_cases (cfg : HeartbeatCfg) (s : HeartbeatMS) (msg : Str)
    (isAt : Bool) (now : Int) (rand : Rat) :
    (shouldInvokeLLM cfg s msg isAt now rand).state.heartbeat = s.heartbeat ∨
    (shouldInvokeLLM cfg s msg isAt now rand).state.heartbeat =
      pyMin cfg.maxHeartbeat (s.heartbeat + cfg.idleGrowth) ∨
    (shouldInvokeLLM cfg s msg isAt now rand).state.heartbeat =
      pyMin cfg.maxHeartbeat cfg.wakeupGrowth ∨
    (shouldInvokeLLM cfg s msg isAt now rand).state.heartbeat = 0 := by
  simp only [shouldInvokeLLM, refreshTenseFlag, growIdleHeartbeat, dropToZero,
    markTenseHold, setTense]
  split_ifs <;> simp_all

/-!  Claim C1 — tense scope with an active hold. -/

/-- C1 counterexample: in a tense scope with an active hold, a non-empty
message unrelated to the focus yields engage=true with the state
unchanged — the engine neither resets to idle nor returns false. -/
theorem heartbeat_hold_unrelated_cex :
    isRelated (pstr "hello") (pstr "zzzz") = false ∧
    isHoldActive 50 ⟨50, true, pstr "hello", 100⟩ = true ∧
    shouldInvokeLLM defaultHeartbeatCfg ⟨50, true, pstr "hello", 100⟩ (pstr "zzzz") false 50 0 =
      ⟨true, ⟨50, true, pstr "hello", 100⟩, true⟩ := by decide

/-- C1 (amended): with an active hold, every non-empty undirected message
returns engage=true and persists; a related message refreshes focus and
hold, an unrelated one leaves the state unchanged (the reset to idle
happens only when tense without an active hold). -/
theorem heartbeat_hold_engages (cfg : HeartbeatCfg) (s : HeartbeatMS) (msg : Str)
    (now : Int) (rand : Rat) (hmsg : pyStrip msg ≠ []) (ht : s.tense = true)
    (hh : isHoldActive now s = true) :
    shouldInvokeLLM cfg s msg false now rand =
      ⟨true, if isRelated s.focusText (pyStrip msg) = true then
        markTenseHold cfg now (setTense s (pyStrip msg)) else s, true⟩ := by
  have hrefresh : refreshTenseFlag now s = s := by
    unfold refreshTenseFlag
    rw [hh]
    simp
  simp only [shouldInvokeLLM, hrefresh]
  rw [if_neg hmsg]
  simp only [Bool.false_eq_true, if_false, ht, hh, if_pos]
  split <;> rfl

/-- C1 witness: the amended theorem applied to a related message in a
tense scope with an active hold. -/
theorem heartbeat_hold_engages_witness :
    pyStrip (pstr " hello there ") ≠ [] ∧
    shouldInvokeLLM defaultHeartbeatCfg ⟨50, true, pstr "hello", 100⟩ (pstr " hello there ") false 50 0 =
      ⟨true, ⟨50, true, pstr "hello there", 950⟩, true⟩ := by
  refine ⟨by decide, ?_⟩
  rw [heartbeat_hold_engages defaultHeartbeatCfg ⟨50, true, pstr "hello", 100⟩
    (pstr " hello there ") 50 0 (by decide) rfl (by decide)]
  decide

/-!  Claim C7 — durable log round-trip. -/

/-- C7 counterexample: the non-empty value "hi " does not round-trip —
`append` strips it, so reloading yields "hi". -/
theorem pool_roundtrip_cex :
    pstr "hi " ≠ [] ∧
    (loadMemoryPool (appendValues emptyMemoryPool (pstr "g") [pstr "hi "] (pstr "t")).files).records
      (normalizeScope (pstr "g")) = [pstr "hi"] ∧
    [pstr "hi"] ≠ [pstr "hi "] := by decide

theorem appendValues_files (scope nowTs : Str) (vs : List Str) :
    ∀ p : MemoryPool, (∀ v ∈ vs, pyStrip v ≠ []) →
      (appendValues p scope vs nowTs).files (normalizeScope scope) =
        p.files (normalizeScope scope) ++ vs.map (fun v => ⟨pyStrip v, nowTs, none⟩) := by
  induction vs with
  | nil =>
    intro p _
    simp [appendValues]
  | cons v vs ih =>
    intro p h
    have hv : pyStrip v ≠ [] := h v (List.mem_cons_self v vs)
    have hrest : ∀ u ∈ vs, pyStrip u ≠ [] := fun u hu => h u (List.mem_cons_of_mem v hu)
    have hstep : appendValues p scope (v :: vs) nowTs =
        appendValues (poolAppend p v scope none none nowTs) scope vs nowTs := rfl
    rw [hstep, ih _ hrest]
    unfold poolAppend
    rw [if_neg hv]
    simp [updateFn, tsOrNow, userNameOpt]

/-- C7 (amended): for every scope and every sequence of values non-empty
after trimming, appending them to a fresh store and reloading yields the
ordered sequence of trimmed values. -/
theorem pool_roundtrip_trimmed (scope : Str) (vs : List Str) (nowTs : Str)
    (h : ∀ v ∈ vs, pyStrip v ≠ []) :
    (loadMemoryPool (appendValues emptyMemoryPool scope vs nowTs).files).records
      (normalizeScope scope) = vs.map pyStrip := by
  show ((appendValues emptyMemoryPool scope vs nowTs).files (normalizeScope scope)).map
    Payload.value = vs.map pyStrip
  rw [appendValues_files scope nowTs vs emptyMemoryPool h]
  simp [emptyMemoryPool]

/-- C7 witness: the amended round trip on a concrete two-value log. -/
theorem pool_roundtrip_trimmed_witness :
    (∀ v ∈ [pstr " a ", pstr "b"], pyStrip v ≠ []) ∧
    (loadMemoryPool (appendValues emptyMemoryPool (pstr "s") [pstr " a ", pstr "b"] (pstr "t")).files).records
      (normalizeScope (pstr "s")) = [pstr "a", pstr "b"] := by
  refine ⟨by decide, ?_⟩
  rw [pool_roundtrip_trimmed (pstr "s") [pstr " a ", pstr "b"] (pstr "t") (by decide)]
  decide

/-!  Claim C4 — the recent window tracks the durable log. -/

theorem alnumDash_not_space (c : Char) (h : (pyIsAlnum c || c = '-' || c = '_') = true) :
    pySpace c = false := by
  rw [Bool.eq_false_iff]
  intro hs
  simp only [Bool.or_eq_true, decide_eq_true_eq] at h
  simp only [pySpace, Bool.or_eq_true, Bool.and_eq_true, decide_eq_true_eq] at hs
  rcases h with (h | h) | h
  · simp only [pyIsAlnum, isCJK, Bool.or_eq_true, Bool.and_eq_true, decide_eq_true_eq] at h
    omega
  · subst h
    revert hs
    decide
  · subst h
    revert hs
    decide

theorem normalizeScope_chars (s : Str) :
    ∀ c ∈ normalizeScope s, (pyIsAlnum c || c = '-' || c = '_') = true := by
  unfold normalizeScope
  by_cases h : pyStrip s = []
  · rw [if_pos h]
    intro c hc
    have hd : pstr "default" = ['d', 'e', 'f', 'a', 'u', 'l', 't'] := rfl
    rw [hd] at hc
    simp only [List.mem_cons, List.not_mem_nil, or_false] at hc
    rcases hc with rfl | rfl | rfl | rfl | rfl | rfl | rfl <;> decide
  · rw [if_neg h]
    intro c hc
    obtain ⟨d, _, rfl⟩ := List.mem_map.mp hc
    by_cases hd : (pyIsAlnum d || d = '-' || d = '_') = true
    · rw [if_pos hd]
      exact hd
    · rw [if_neg hd]
      decide

theorem normalizeScope_ne_nil (s : Str) : normalizeScope s ≠ [] := by
  unfold normalizeScope
  by_cases h : pyStrip s = []
  · rw [if_pos h]
    decide
  · rw [if_neg h]
    simpa using h

theorem normalizeScope_fixed {t : Str} (hne : t ≠ [])
    (hchars : ∀ c ∈ t, (pyIsAlnum c || c = '-' || c = '_') = true) :
    normalizeScope t = t := by
  have hstrip : pyStrip t = t :=
    pyStrip_eq_self_of_all (fun c hc => alnumDash_not_space c (hchars c hc))
  unfold normalizeScope
  rw [hstrip, if_neg hne]
  have hid : ∀ c ∈ t, (if pyIsAlnum c || c = '-' || c = '_' then c else '_') = c :=
    fun c hc => if_pos (hchars c hc)
  rw [List.map_congr_left hid]
  simp

theorem normalizeScope_idem (s : Str) : normalizeScope (normalizeScope s) = normalizeScope s :=
  normalizeScope_fixed (normalizeScope_ne_nil s) (normalizeScope_chars s)

theorem takeLast_all {α : Type} (n : Nat) (R : List α) (h : R.length ≤ n) : takeLast n R = R := by
  unfold takeLast
  rw [Nat.sub_eq_zero_of_le h, List.drop_zero]

theorem takeLast_snoc_ge {α : Type} (n : Nat) (R : List α) (x : α) (hn : 0 < n)
    (h : n ≤ R.length) : takeLast n (takeLast n R ++ [x]) = takeLast n (R ++ [x]) := by
  unfold takeLast
  have hlenTL : (R.drop (R.length - n)).length = n := by
    rw [List.length_drop]
    omega
  rw [List.length_append, hlenTL]
  have h1 : n + [x].length - n = 1 := by simp
  rw [h1]
  rw [List.drop_append_of_le_length (by omega)]
  rw [List.drop_drop]
  rw [List.length_append]
  rw [List.drop_append_of_le_length (by simp; omega)]
  have h2 : R.length - n + 1 = R.length + [x].length - n := by simp; omega
  rw [h2]

theorem window_trim_eq (L : Int) (hpos : 0 < L) (R : List Str) (x : Str)
    (T : List Str) (hT : T = takeLast L.toNat R) :
    (if L < ((T ++ [x]).length : Int) then negSliceLast L (T ++ [x]) else T ++ [x]) =
      takeLast L.toNat (R ++ [x]) := by
  have hnpos : 0 < L.toNat := by omega
  have hTlen : T.length = min L.toNat R.length := by
    rw [hT]
    unfold takeLast
    rw [List.length_drop]
    omega
  by_cases hc : L.toNat ≤ R.length
  · have hcond : L < ((T ++ [x]).length : Int) := by
      rw [List.length_append, hTlen]
      simp
      omega
    rw [if_pos hcond]
    unfold negSliceLast
    rw [if_pos hpos, hT]
    exact takeLast_snoc_ge L.toNat R x hnpos hc
  · have hTR : T = R := by
      rw [hT]
      exact takeLast_all L.toNat R (by omega)
    have hcond : ¬ L < ((T ++ [x]).length : Int) := by
      rw [List.length_append, hTR]
      simp
      omega
    rw [if_neg hcond, hTR]
    exact (takeLast_all L.toNat (R ++ [x]) (by simp; omega)).symm

theorem poolAppend_records (p : MemoryPool) (item scope : Str) (timestamp un : Option Str)
    (nowTs : Str) (hitem : pyStrip item = item) (hne : item ≠ []) (k : Str) :
    (poolAppend p item scope timestamp un nowTs).records k =
      if k = normalizeScope scope then p.records (normalizeScope scope) ++ [item]
      else p.records k := by
  simp only [poolAppend]
  rw [hitem, if_neg hne]
  rfl

theorem poolAppend_files (p : MemoryPool) (item scope : Str) (timestamp un : Option Str)
    (nowTs : Str) (hitem : pyStrip item = item) (hne : item ≠ []) (k : Str) :
    (poolAppend p item scope timestamp un nowTs).files k =
      if k = normalizeScope scope then
        p.files (normalizeScope scope) ++ [⟨item, tsOrNow timestamp nowTs, userNameOpt un⟩]
      else p.files k := by
  simp only [poolAppend]
  rw [hitem, if_neg hne]
  rfl

theorem rememberRaw_pool (ce : CtxEngine) (item scope : Str) (un : Option Str) (nowTs : Str) :
    (rememberRaw ce item scope un nowTs).pool =
      poolAppend ce.pool item scope none un nowTs := rfl

theorem rememberRaw_limit (ce : CtxEngine) (item scope : Str) (un : Option Str) (nowTs : Str) :
    (rememberRaw ce item scope un nowTs).recentLimit = ce.recentLimit := rfl

theorem rememberRaw_windows (ce : CtxEngine) (item scope : Str) (un : Option Str)
    (nowTs : Str) (k : Str) :
    (rememberRaw ce item scope un nowTs).windows k =
      if k = normalizeScope scope then
        some (if ce.recentLimit <
            ((recentContextVal ce (normalizeScope scope) ++ [item]).length : Int)
          then negSliceLast ce.recentLimit (recentContextVal ce (normalizeScope scope) ++ [item])
          else recentContextVal ce (normalizeScope scope) ++ [item])
      else ce.windows k := rfl

theorem recentContextVal_eq (ce : CtxEngine) (scope : Str) (hpos : 0 < ce.recentLimit)
    (hwin : ∀ k w, ce.windows k = some w →
      w = takeLast ce.recentLimit.toNat (ce.pool.records k)) :
    recentContextVal ce (normalizeScope scope) =
      takeLast ce.recentLimit.toNat (ce.pool.records (normalizeScope scope)) := by
  unfold recentContextVal
  cases hws : ce.windows (normalizeScope scope) with
  | some w0 => exact hwin _ _ hws
  | none =>
    unfold poolRecent
    rw [if_neg (by omega), normalizeScope_idem]

theorem rememberRaw_inv (ce : CtxEngine) (item scope : Str) (un : Option Str) (nowTs : Str)
    (hpos : 0 < ce.recentLimit) (hitem : pyStrip item = item) (hne : item ≠ [])
    (hinv : ctxInv ce) : ctxInv (rememberRaw ce item scope un nowTs) := by
  obtain ⟨hrec, hwin⟩ := hinv
  constructor
  · intro k
    rw [rememberRaw_pool, poolAppend_records _ _ _ _ _ _ hitem hne,
      poolAppend_files _ _ _ _ _ _ hitem hne]
    by_cases hk : k = normalizeScope scope
    · rw [if_pos hk, if_pos hk]
      simp [hrec]
    · rw [if_neg hk, if_neg hk]
      exact hrec k
  · intro k w hw
    rw [rememberRaw_windows] at hw
    rw [rememberRaw_limit, rememberRaw_pool, poolAppend_records _ _ _ _ _ _ hitem hne]
    by_cases hk : k = normalizeScope scope
    · rw [if_pos hk] at hw
      rw [if_pos hk]
      have hwv := Option.some.inj hw
      rw [← hwv]
      exact window_trim_eq ce.recentLimit hpos (ce.pool.records (normalizeScope scope)) item
        (recentContextVal ce (normalizeScope scope))
        (recentContextVal_eq ce scope hpos hwin)
    · rw [if_neg hk] at hw
      rw [if_neg hk]
      exact hwin k w hw

theorem rememberUserMessage_inv (ce : CtxEngine) (msg scope : Str) (un : Option Str) (ts : Str)
    (hpos : 0 < ce.recentLimit) (hinv : ctxInv ce) :
    ctxInv (rememberUserMessage ce msg scope un ts) := by
  simp only [rememberUserMessage]
  by_cases h : pyStrip msg = []
  · rw [if_pos h]
    exact hinv
  · rw [if_neg h]
    have e : pstr "user: " ++ pyStrip msg = 'u' :: pstr "ser: " ++ pyStrip msg := rfl
    apply rememberRaw_inv ce _ scope un ts hpos _ _ hinv
    · rw [e]
      exact pyStrip_cons_append 'u' (pstr "ser: ") msg (by decide) h
    · rw [e]
      exact List.cons_ne_nil _ _

theorem rememberUserMessage_limit (ce : CtxEngine) (msg scope : Str) (un : Option Str)
    (ts : Str) : (rememberUserMessage ce msg scope un ts).recentLimit = ce.recentLimit := by
  simp only [rememberUserMessage]
  split <;> rfl

theorem rememberAssistantMessage_inv (ce : CtxEngine) (msg scope : Str) (ts : Str)
    (hpos : 0 < ce.recentLimit) (hinv : ctxInv ce) :
    ctxInv (rememberAssistantMessage ce msg scope ts) := by
  simp only [rememberAssistantMessage]
  by_cases h : pyStrip msg = []
  · rw [if_pos h]
    exact hinv
  · rw [if_neg h]
    have e : pstr "assistant: " ++ pyStrip msg = 'a' :: pstr "ssistant: " ++ pyStrip msg := rfl
    apply rememberRaw_inv ce _ scope none ts hpos _ _ hinv
    · rw [e]
      exact pyStrip_cons_append 'a' (pstr "ssistant: ") msg (by decide) h
    · rw [e]
      exact List.cons_ne_nil _ _

theorem rememberAssistantMessage_limit (ce : CtxEngine) (msg scope : Str) (ts : Str) :
    (rememberAssistantMessage ce msg scope ts).recentLimit = ce.recentLimit := by
  simp only [rememberAssistantMessage]
  split <;> rfl

theorem applyRememberOp_inv (ce : CtxEngine) (op : RememberOp) (hpos : 0 < ce.recentLimit)
    (hinv : ctxInv ce) :
    ctxInv (applyRememberOp ce op) ∧ (applyRememberOp ce op).recentLimit = ce.recentLimit := by
  cases op with
  | user msg scope un ts =>
    exact ⟨rememberUserMessage_inv ce msg scope un ts hpos hinv,
      rememberUserMessage_limit ce msg scope un ts⟩
  | assistant msg scope ts =>
    exact ⟨rememberAssistantMessage_inv ce msg scope ts hpos hinv,
      rememberAssistantMessage_limit ce msg scope ts⟩

theorem applyRememberOps_inv (ops : List RememberOp) :
    ∀ ce : CtxEngine, 0 < ce.recentLimit → ctxInv ce →
      ctxInv (applyRememberOps ce ops) ∧ (applyRememberOps ce ops).recentLimit = ce.recentLimit := by
  induction ops with
  | nil =>
    intro ce _ hinv
    exact ⟨hinv, rfl⟩
  | cons op ops ih =>
    intro ce hpos hinv
    have hstep := applyRememberOp_inv ce op hpos hinv
    have hrest := ih (applyRememberOp ce op) (hstep.2 ▸ hpos) hstep.1
    exact ⟨hrest.1, hrest.2.trans hstep.2⟩

theorem initCtxEngine_inv (disk : Str → List Payload) (limit : Int) :
    ctxInv (initCtxEngine disk limit) := by
  constructor
  · intro k
    rfl
  · intro k w hw
    exact absurd hw (by simp [initCtxEngine])

/-- C4: for every scope, starting from a store loaded from disk with a
positive recent limit, after any sequence of rememberUser/rememberAssistant
calls the in-memory recent window of that scope equals the last N values
of that scope's durable log. -/
theorem recent_window_matches_log (disk : Str → List Payload) (limit : Int)
    (ops : List RememberOp) (scope : Str) (hpos : 0 < limit) :
    recentWindowRead (applyRememberOps (initCtxEngine disk limit) ops) scope =
      takeLast limit.toNat
        (durableLogValues (applyRememberOps (initCtxEngine disk limit) ops) scope) := by
  obtain ⟨⟨hrec, hwin⟩, hlim⟩ :=
    applyRememberOps_inv ops (initCtxEngine disk limit) hpos (initCtxEngine_inv disk limit)
  unfold recentWindowRead durableLogValues
  rw [recentContextVal_eq _ scope (by rw [hlim]; exact hpos) hwin, hrec, hlim]
  rfl

/-- C4 witness: a concrete three-call run over a limit-2 window. -/
theorem recent_window_matches_log_witness :
    (0 : Int) < 2 ∧
    recentWindowRead (applyRememberOps (initCtxEngine (fun _ => []) 2)
      [RememberOp.user (pstr "a") (pstr "s") none (pstr "t"),
       RememberOp.user (pstr "b") (pstr "s") none (pstr "t"),
       RememberOp.assistant (pstr "c") (pstr "s") (pstr "t")]) (pstr "s") =
      [pstr "user: b", pstr "assistant: c"] := by
  refine ⟨by decide, ?_⟩
  rw [recent_window_matches_log (fun _ => []) 2 _ (pstr "s") (by decide)]
  decide

/-!  Claim C8 — ordering of workflow side effects. -/

theorem get?_first_generate {l pre post : List WfAction} {m2 sc : Str}
    (hl : l = pre ++ WfAction.rememberUser m2 sc :: post)
    (hpre : ∀ a ∈ pre, ∀ c b m, a ≠ WfAction.generate c b m)
    {i : Nat} {c : Str} {b : Bool} {m : Str}
    (hi : l.get? i = some (WfAction.generate c b m)) :
    ∃ j, j < i ∧ l.get? j = some (WfAction.rememberUser m2 sc) := by
  subst hl
  refine ⟨pre.length, ?_, ?_⟩
  · by_contra hlt
    push_neg at hlt
    rcases Nat.lt_or_eq_of_le hlt with hc | hc
    · rw [List.get?_append hc] at hi
      exact hpre _ (List.get?_mem hi) c b m rfl
    · subst hc
      rw [List.get?_append_right (Nat.le_refl _), Nat.sub_self] at hi
      simp at hi
  · rw [List.get?_append_right (Nat.le_refl _), Nat.sub_self]
    rfl

/-- C8: in every free-text run of the workflow, any generation call is
preceded in the trace by the recording of the normalized user message;
and an assistant message is recorded, resp. the on-invoked hook fires,
iff a generation happened and its reply is non-empty after trimming. -/
theorem workflow_effect_order (allowed : List Int) (ports : WfPorts) (msg : Option Str)
    (atUser : Bool) (source : Str) (groupId : Option Int) :
    (∀ i c b m, (wfProcess allowed ports msg atUser false source groupId).2.get? i =
        some (WfAction.generate c b m) →
      ∃ j m2 sc, j < i ∧
        (wfProcess allowed ports msg atUser false source groupId).2.get? j =
          some (WfAction.rememberUser m2 sc) ∧ normalizeTextModel msg = some m2) ∧
    ((∃ m2 sc, WfAction.rememberAssistant m2 sc ∈
        (wfProcess allowed ports msg atUser false source groupId).2) ↔
      ((∃ c b m, WfAction.generate c b m ∈
        (wfProcess allowed ports msg atUser false source groupId).2) ∧
        pyStrip ports.reply ≠ [])) ∧
    ((∃ t r sc, WfAction.onInvoked t r sc ∈
        (wfProcess allowed ports msg atUser false source groupId).2) ↔
      ((∃ c b m, WfAction.generate c b m ∈
        (wfProcess allowed ports msg atUser false source groupId).2) ∧
        pyStrip ports.reply ≠ [])) := by
  cases hsp : shouldProcessMessage allowed source groupId with
  | false =>
    have htr : (wfProcess allowed ports msg atUser false source groupId).2 =
        [WfAction.emitEvent (pstr "adapter.ignore")] := by
      simp [wfProcess, hsp]
    refine ⟨?_, ?_, ?_⟩
    · intro i c b m hi
      rw [htr] at hi
      have hmem := List.get?_mem hi
      simp at hmem
    · simp [htr]
    · simp [htr]
  | true =>
    cases hnm : normalizeTextModel msg with
    | none =>
      have htr : (wfProcess allowed ports msg atUser false source groupId).2 =
          [WfAction.emitEvent (pstr "adapter.ignore")] := by
        simp [wfProcess, hsp, hnm]
      refine ⟨?_, ?_, ?_⟩
      · intro i c b m hi
        rw [htr] at hi
        have hmem := List.get?_mem hi
        simp at hmem
      · simp [htr]
      · simp [htr]
    | some clean =>
      cases hdec : ports.decision with
      | false =>
        have htr : (wfProcess allowed ports msg atUser false source groupId).2 =
            [WfAction.emitEvent (pstr "adapter.captured"),
             WfAction.snapshot (wfScope source groupId),
             WfAction.decideCall clean (wfScope source groupId),
             WfAction.snapshot (wfScope source groupId),
             WfAction.emitEvent (pstr "heartbeat.checked"),
             WfAction.rememberUser clean (wfScope source groupId),
             WfAction.emitEvent (pstr "context.user_recorded")] := by
          simp [wfProcess, hsp, hnm, hdec]
        refine ⟨?_, ?_, ?_⟩
        · intro i c b m hi
          rw [htr] at hi
          have hmem := List.get?_mem hi
          simp at hmem
        · simp [htr]
        · simp [htr]
      | true =>
        have hpre : ∀ a ∈ [WfAction.emitEvent (pstr "adapter.captured"),
            WfAction.snapshot (wfScope source groupId),
            WfAction.decideCall clean (wfScope source groupId),
            WfAction.snapshot (wfScope source groupId),
            WfAction.emitEvent (pstr "heartbeat.checked"),
            WfAction.composeCall clean (wfScope source groupId)],
            ∀ c b m, a ≠ WfAction.generate c b m := by
          intro a ha c b m
          simp only [List.mem_cons, List.not_mem_nil, or_false] at ha
          rcases ha with rfl | rfl | rfl | rfl | rfl | rfl <;> simp
        by_cases hrep : pyStrip ports.reply = []
        · have htr : (wfProcess allowed ports msg atUser false source groupId).2 =
              [WfAction.emitEvent (pstr "adapter.captured"),
               WfAction.snapshot (wfScope source groupId),
               WfAction.decideCall clean (wfScope source groupId),
               WfAction.snapshot (wfScope source groupId),
               WfAction.emitEvent (pstr "heartbeat.checked"),
               WfAction.composeCall clean (wfScope source groupId),
               WfAction.rememberUser clean (wfScope source groupId),
               WfAction.emitEvent (pstr "context.composed"),
               WfAction.generate ports.composed atUser (wfReplyMode atUser ports.tenseBefore),
               WfAction.emitEvent (pstr "workflow.no_reply")] := by
            simp [wfProcess, hsp, hnm, hdec, hrep]
          refine ⟨?_, ?_, ?_⟩
          · intro i c b m hi
            rw [htr] at hi
            obtain ⟨j, hj, hjget⟩ := get?_first_generate rfl hpre hi
            exact ⟨j, clean, wfScope source groupId, hj, by rw [htr]; exact hjget, rfl⟩
          · simp [htr, hrep]
          · simp [htr, hrep]
        · have htr : (wfProcess allowed ports msg atUser false source groupId).2 =
              [WfAction.emitEvent (pstr "adapter.captured"),
               WfAction.snapshot (wfScope source groupId),
               WfAction.decideCall clean (wfScope source groupId),
               WfAction.snapshot (wfScope source groupId),
               WfAction.emitEvent (pstr "heartbeat.checked"),
               WfAction.composeCall clean (wfScope source groupId),
               WfAction.rememberUser clean (wfScope source groupId),
               WfAction.emitEvent (pstr "context.composed"),
               WfAction.generate ports.composed atUser (wfReplyMode atUser ports.tenseBefore),
               WfAction.rememberAssistant ports.reply (wfScope source groupId),
               WfAction.onInvoked clean ports.reply (wfScope source groupId),
               WfAction.emitEvent (pstr "workflow.replied")] := by
            simp [wfProcess, hsp, hnm, hdec, hrep]
          refine ⟨?_, ?_, ?_⟩
          · intro i c b m hi
            rw [htr] at hi
            obtain ⟨j, hj, hjget⟩ := get?_first_generate rfl hpre hi
            exact ⟨j, clean, wfScope source groupId, hj, by rw [htr]; exact hjget, rfl⟩
          · simp [htr, hrep]
          · simp [htr, hrep]

/-- C8 witness: at a concrete engaged run with a non-empty reply, the
assistant recording is present, derived through the theorem. -/
theorem workflow_effect_order_witness :
    ∃ m2 sc, WfAction.rememberAssistant m2 sc ∈
      (wfProcess [] ⟨true, false, pstr "ctx", pstr "ok", pstr "sr"⟩ (some (pstr "hi"))
        false false (pstr "web") none).2 := by
  have h := workflow_effect_order [] ⟨true, false, pstr "ctx", pstr "ok", pstr "sr"⟩
    (some (pstr "hi")) false (pstr "web") none
  exact h.2.1.mpr ⟨⟨pstr "ctx", false, pstr "auto", by decide⟩, by decide⟩

/-!  Claim C2 — provenance of the tool loop's reply. -/

theorem runToolLoopAux_spec (cfg : AgentCfg) (outputs : Nat → Str → Str)
    (tools : Nat → Str → List (Str × Json) → Except Str (List (Str × Json)))
    (content : Str) :
    ∀ fuel i prompt,
      ((runToolLoopAux cfg outputs tools content fuel i prompt).1 ≠ [] →
        ∃ rec r, rec ∈ (runToolLoopAux cfg outputs tools content fuel i prompt).2 ∧
          rec.name = cfg.finalReplyTool ∧
          tools rec.round rec.name rec.args = Except.ok r ∧
          (runToolLoopAux cfg outputs tools content fuel i prompt).1 =
            extractFinalReply r rec.args ∧
          i ≤ rec.round ∧ rec.round < i + fuel) ∧
      ((∀ rec ∈ (runToolLoopAux cfg outputs tools content fuel i prompt).2,
          rec.name ≠ cfg.finalReplyTool) →
        (runToolLoopAux cfg outputs tools content fuel i prompt).1 = []) := by
  intro fuel
  induction fuel with
  | zero =>
    intro i prompt
    constructor
    · intro h
      exact absurd rfl h
    · intro _
      rfl
  | succ fuel ih =>
    intro i prompt
    rcases hparse : parseJsonModel (outputs i prompt) with _ | parsed
    · have hstep : runToolLoopAux cfg outputs tools content (fuel + 1) i prompt =
          runToolLoopAux cfg outputs tools content fuel (i + 1) (retryPrompt cfg) := by
        simp [runToolLoopAux, hparse]
      rw [hstep]
      obtain ⟨h1, h2⟩ := ih (i + 1) (retryPrompt cfg)
      refine ⟨?_, h2⟩
      intro hne
      obtain ⟨rec, r, hmem, hnm, htl, hres, hle, hlt⟩ := h1 hne
      exact ⟨rec, r, hmem, hnm, htl, hres, by omega, by omega⟩
    · cases hty : isToolCallType parsed with
      | false =>
        have hstep : runToolLoopAux cfg outputs tools content (fuel + 1) i prompt =
            runToolLoopAux cfg outputs tools content fuel (i + 1) protoPrompt := by
          simp [runToolLoopAux, hparse, hty]
        rw [hstep]
        obtain ⟨h1, h2⟩ := ih (i + 1) protoPrompt
        refine ⟨?_, h2⟩
        intro hne
        obtain ⟨rec, r, hmem, hnm, htl, hres, hle, hlt⟩ := h1 hne
        exact ⟨rec, r, hmem, hnm, htl, hres, by omega, by omega⟩
      | true =>
        rcases hname : toolNameStr parsed with _ | name
        · have hstep : runToolLoopAux cfg outputs tools content (fuel + 1) i prompt =
              runToolLoopAux cfg outputs tools content fuel (i + 1) (emptyToolPrompt cfg) := by
            simp [runToolLoopAux, hparse, hty, hname]
          rw [hstep]
          obtain ⟨h1, h2⟩ := ih (i + 1) (emptyToolPrompt cfg)
          refine ⟨?_, h2⟩
          intro hne
          obtain ⟨rec, r, hmem, hnm, htl, hres, hle, hlt⟩ := h1 hne
          exact ⟨rec, r, hmem, hnm, htl, hres, by omega, by omega⟩
        · by_cases hstrip : pyStrip name = []
          · have hstep : runToolLoopAux cfg outputs tools content (fuel + 1) i prompt =
                runToolLoopAux cfg outputs tools content fuel (i + 1) (emptyToolPrompt cfg) := by
              simp [runToolLoopAux, hparse, hty, hname, hstrip]
            rw [hstep]
            obtain ⟨h1, h2⟩ := ih (i + 1) (emptyToolPrompt cfg)
            refine ⟨?_, h2⟩
            intro hne
            obtain ⟨rec, r, hmem, hnm, htl, hres, hle, hlt⟩ := h1 hne
            exact ⟨rec, r, hmem, hnm, htl, hres, by omega, by omega⟩
          · rcases htool : tools i name (argumentsOf parsed) with e | res
            · have hstep : runToolLoopAux cfg outputs tools content (fuel + 1) i prompt =
                  ((runToolLoopAux cfg outputs tools content fuel (i + 1) (toolFailPrompt e content)).1,
                   ⟨i, name, argumentsOf parsed⟩ ::
                     (runToolLoopAux cfg outputs tools content fuel (i + 1) (toolFailPrompt e content)).2) := by
                simp [runToolLoopAux, hparse, hty, hname, hstrip, htool]
              rw [hstep]
              obtain ⟨h1, h2⟩ := ih (i + 1) (toolFailPrompt e content)
              constructor
              · intro hne
                obtain ⟨rec, r, hmem, hnm, htl, hres, hle, hlt⟩ := h1 hne
                exact ⟨rec, r, List.mem_cons_of_mem _ hmem, hnm, htl, hres, by omega, by omega⟩
              · intro hall
                exact h2 (fun rec hmem => hall rec (List.mem_cons_of_mem _ hmem))
            · by_cases hfin : name = cfg.finalReplyTool
              · subst hfin
                have hstep : runToolLoopAux cfg outputs tools content (fuel + 1) i prompt =
                    (extractFinalReply res (argumentsOf parsed),
                     [⟨i, cfg.finalReplyTool, argumentsOf parsed⟩]) := by
                  simp [runToolLoopAux, hparse, hty, hname, hstrip, htool]
                rw [hstep]
                constructor
                · intro _
                  refine ⟨⟨i, cfg.finalReplyTool, argumentsOf parsed⟩, res, ?_, rfl, htool, rfl,
                    Nat.le_refl i, by show i < i + (fuel + 1); omega⟩
                  simp
                · intro hall
                  exact absurd rfl
                    (hall ⟨i, cfg.finalReplyTool, argumentsOf parsed⟩ (by simp))
              · have hstep : runToolLoopAux cfg outputs tools content (fuel + 1) i prompt =
                    ((runToolLoopAux cfg outputs tools content fuel (i + 1)
                        (continuePrompt content name (jsonDumps (Json.obj res)))).1,
                     ⟨i, name, argumentsOf parsed⟩ ::
                       (runToolLoopAux cfg outputs tools content fuel (i + 1)
                         (continuePrompt content name (jsonDumps (Json.obj res)))).2) := by
                  simp [runToolLoopAux, hparse, hty, hname, hstrip, htool, hfin]
                rw [hstep]
                obtain ⟨h1, h2⟩ := ih (i + 1) (continuePrompt content name (jsonDumps (Json.obj res)))
                constructor
                · intro hne
                  obtain ⟨rec, r, hmem, hnm, htl, hres, hle, hlt⟩ := h1 hne
                  exact ⟨rec, r, List.mem_cons_of_mem _ hmem, hnm, htl, hres, by omega, by omega⟩
                · intro hall
                  exact h2 (fun rec hmem => hall rec (List.mem_cons_of_mem _ hmem))

/-- C2 (amended): the loop's result is non-empty only if some round below
max_steps invoked the terminal tool successfully, and the result is then
exactly `_extract_final_reply` of that invocation's tool result and
arguments (the payload embedded in the tool result takes precedence over
the model-supplied arguments); when no round invokes the terminal tool —
in particular on exhaustion — the loop returns exactly the empty string. -/
theorem tool_loop_reply_provenance (cfg : AgentCfg) (outputs : Nat → Str → Str)
    (tools : Nat → Str → List (Str × Json) → Except Str (List (Str × Json)))
    (content : Str) (cachedTools : List Json) :
    ((runToolLoop cfg outputs tools content cachedTools).1 ≠ [] →
      ∃ rec r, rec ∈ (runToolLoop cfg outputs tools content cachedTools).2 ∧
        rec.name = cfg.finalReplyTool ∧
        tools rec.round rec.name rec.args = Except.ok r ∧
        (runToolLoop cfg outputs tools content cachedTools).1 = extractFinalReply r rec.args ∧
        rec.round < cfg.maxSteps) ∧
    ((∀ rec ∈ (runToolLoop cfg outputs tools content cachedTools).2,
        rec.name ≠ cfg.finalReplyTool) →
      (runToolLoop cfg outputs tools content cachedTools).1 = []) := by
  unfold runToolLoop
  obtain ⟨h1, h2⟩ := runToolLoopAux_spec cfg outputs tools content cfg.maxSteps 0
    (initialToolPrompt content cachedTools)
  refine ⟨?_, h2⟩
  intro hne
  obtain ⟨rec, r, hmem, hnm, htl, hres, _, hlt⟩ := h1 hne
  exact ⟨rec, r, hmem, hnm, htl, hres, by omega⟩

/-- C2 counterexample: the model calls the terminal tool with an explicit
should_reply=false, yet the loop returns the non-empty reply embedded in
the tool result — so "non-empty only if the terminal tool was invoked
with explicit-or-defaulted should_reply != false" fails. -/
theorem tool_loop_gate_cex :
    runToolLoop defaultAgentCfg
      (fun _ _ => pstr "\x7b\"type\":\"tool_call\",\"tool\":\"emit_reply\",\"arguments\":\x7b\"should_reply\":false\x7d\x7d")
      (fun _ _ _ => Except.ok [(pstr "should_reply", Json.bool true),
        (pstr "reply", Json.str (pstr "hi"))])
      (pstr "q") [] =
      (pstr "hi", [⟨0, pstr "emit_reply", [(pstr "should_reply", Json.bool false)]⟩]) ∧
    pstr "hi" ≠ [] := ⟨rfl, by decide⟩

/-- C2 witness: the provenance theorem applied at a run whose single
round terminates through emit_reply with a non-empty content. -/
theorem tool_loop_reply_provenance_witness :
    (runToolLoop defaultAgentCfg
      (fun _ _ => pstr "\x7b\"type\":\"tool_call\",\"tool\":\"emit_reply\",\"arguments\":\x7b\"content\":\"ok\",\"should_reply\":true\x7d\x7d")
      (fun _ _ _ => Except.ok []) (pstr "q") []).1 ≠ [] ∧
    (∃ rec r, rec ∈ (runToolLoop defaultAgentCfg
        (fun _ _ => pstr "\x7b\"type\":\"tool_call\",\"tool\":\"emit_reply\",\"arguments\":\x7b\"content\":\"ok\",\"should_reply\":true\x7d\x7d")
        (fun _ _ _ => Except.ok []) (pstr "q") []).2 ∧
      rec.name = defaultAgentCfg.finalReplyTool ∧
      (fun _ _ _ => (Except.ok [] : Except Str (List (Str × Json)))) rec.round rec.name rec.args =
        Except.ok r ∧
      (runToolLoop defaultAgentCfg
        (fun _ _ => pstr "\x7b\"type\":\"tool_call\",\"tool\":\"emit_reply\",\"arguments\":\x7b\"content\":\"ok\",\"should_reply\":true\x7d\x7d")
        (fun _ _ _ => Except.ok []) (pstr "q") []).1 = extractFinalReply r rec.args ∧
      rec.round < defaultAgentCfg.maxSteps) := by
  refine ⟨by decide, ?_⟩
  exact (tool_loop_reply_provenance defaultAgentCfg
    (fun _ _ => pstr "\x7b\"type\":\"tool_call\",\"tool\":\"emit_reply\",\"arguments\":\x7b\"content\":\"ok\",\"should_reply\":true\x7d\x7d")
    (fun _ _ _ => Except.ok []) (pstr "q") []).1 (by decide)
